import Mathlib

/-!
Shallow embedding of the band-index utilities of `tensorflow_caney`
(`tensorflow_caney/utils/indices.py` and `tensorflow_caney/utils/optimizers.py`).

A raster is a channel-major stack of 2-D bands together with the mutable
`band_names` metadata list carried in the xarray attrs.  Band values are
modelled as rationals (exact field arithmetic standing in for IEEE floats;
division is total with x / 0 = 0).  A single band is modelled as a function
from pixel coordinates to its value, so elementwise formulas are literal.
Python exceptions (ValueError) are modelled with `Except String`.
The float power operator `**` with a non-integral exponent, used only by
`si`, is passed in as an explicit function parameter `fpow`.
-/

/-- A single raster band, as a map from pixel coordinates to its value. -/
def Band : Type := Nat → Nat → ℚ

/-- A multiband raster: band-major data plus the `band_names` attrs metadata. -/
structure Raster where
  data : List Band
  band_names : List String

/-- `raster[i, :, :]`: the `i`-th band slice (valid indices only are exercised). -/
def Raster.band (r : Raster) (i : Nat) : Band :=
  r.data.getD i (fun _ _ => 0)

/-- Python `str.lower()` (the band names in play are ASCII). -/
def pyLower (s : String) : String :=
  String.mk (s.data.map Char.toLower)

/-- Python `list.index`: index of the first occurrence, `none` when absent. -/
def pyIndex : List String → String → Option Nat
  | [], _ => none
  | y :: ys, x => if y = x then some 0 else (pyIndex ys x).map (· + 1)

/-- The single-quote character, used by the Python repr of a string list. -/
def pyQuote : String :=
  String.mk [Char.ofNat 39]

/-- Python repr of a list of strings, as interpolated into the error message. -/
def pyListRepr (bands : List String) : String :=
  "[" ++ String.intercalate ", " (bands.map (fun s => pyQuote ++ s ++ pyQuote)) ++ "]"

/-- The message of the ValueError raised by `_get_band_locations`. -/
def bandNotFoundMsg (b : String) (bands : List String) : String :=
  b ++ " not in raster bands " ++ pyListRepr bands

/-- `_get_band_locations(bands, requested_bands)`: list indices for band
locations, in the order requested; ValueError on the first absent band. -/
def _get_band_locations (bands : List String) : List String → Except String (List Nat)
  | [] => .ok []
  | b :: rest =>
    match pyIndex bands (pyLower b) with
    | some i =>
      match _get_band_locations bands rest with
      | .ok locs => .ok (i :: locs)
      | .error e => .error e
    | none => .error (bandNotFoundMsg b bands)

/-- `bai`: 1 / ((0.1 - red)^2 + (0.06 - nir1)^2). -/
def bai (raster : Raster) : Except String Band :=
  match _get_band_locations raster.band_names ["red", "nir1"] with
  | .error e => .error e
  | .ok locs =>
    let red := locs.getD 0 0
    let nir1 := locs.getD 1 0
    .ok fun x y =>
      1 / (((0.1 : ℚ) - raster.band red x y) ^ 2 +
           ((0.06 : ℚ) - raster.band nir1 x y) ^ 2)

/-- `cig`: (nir1 / green) - 1. -/
def cig (raster : Raster) : Except String Band :=
  match _get_band_locations raster.band_names ["nir1", "green"] with
  | .error e => .error e
  | .ok locs =>
    let nir1 := locs.getD 0 0
    let green := locs.getD 1 0
    .ok fun x y => raster.band nir1 x y / raster.band green x y - 1

/-- `cire`: (nir1 / rededge) - 1, with the band set switched to
`["nir1", "red"]` when `not all(b in bands for b in raster.band_names)`,
exactly as the source writes the test (the generator ranges over the
raster's band names, not over the required bands). -/
def cire (raster : Raster) : Except String Band :=
  let bands :=
    if raster.band_names.all (fun b => ["nir1", "rededge"].contains b) then
      ["nir1", "rededge"]
    else
      ["nir1", "red"]
  match _get_band_locations raster.band_names bands with
  | .error e => .error e
  | .ok locs =>
    let nir1 := locs.getD 0 0
    let rededge := locs.getD 1 0
    .ok fun x y => raster.band nir1 x y / raster.band rededge x y - 1

/-- `cm`: swir1 / swir2. -/
def cm (raster : Raster) : Except String Band :=
  match _get_band_locations raster.band_names ["swir1", "swir2"] with
  | .error e => .error e
  | .ok locs =>
    let swir1 := locs.getD 0 0
    let swir2 := locs.getD 1 0
    .ok fun x y => raster.band swir1 x y / raster.band swir2 x y

/-- `cs1`: (3 * nir1) / (blue + green + red). -/
def cs1 (raster : Raster) : Except String Band :=
  match _get_band_locations raster.band_names ["nir1", "red", "blue", "green"] with
  | .error e => .error e
  | .ok locs =>
    let nir1 := locs.getD 0 0
    let _red := locs.getD 1 0
    let blue := locs.getD 2 0
    let green := locs.getD 3 0
    .ok fun x y =>
      (3 * raster.band nir1 x y) /
        (raster.band blue x y + raster.band green x y + raster.band _red x y)

/-- `cs2`: (blue + green + red + nir1) / 4. -/
def cs2 (raster : Raster) : Except String Band :=
  match _get_band_locations raster.band_names ["nir1", "red", "blue", "green"] with
  | .error e => .error e
  | .ok locs =>
    let nir1 := locs.getD 0 0
    let _red := locs.getD 1 0
    let blue := locs.getD 2 0
    let green := locs.getD 3 0
    .ok fun x y =>
      (raster.band blue x y + raster.band green x y +
        raster.band _red x y + raster.band nir1 x y) / 4

/-- `dvi`: nir1 - red. -/
def dvi (raster : Raster) : Except String Band :=
  match _get_band_locations raster.band_names ["nir1", "red"] with
  | .error e => .error e
  | .ok locs =>
    let nir1 := locs.getD 0 0
    let red := locs.getD 1 0
    .ok fun x y => raster.band nir1 x y - raster.band red x y

/-- `dwi`: green - nir1. -/
def dwi (raster : Raster) : Except String Band :=
  match _get_band_locations raster.band_names ["nir1", "green"] with
  | .error e => .error e
  | .ok locs =>
    let nir1 := locs.getD 0 0
    let green := locs.getD 1 0
    .ok fun x y => raster.band green x y - raster.band nir1 x y

/-- `evi`: (2.5 * (nir1 - red)) / (nir1 + 6 * red - 7.5 * blue + 1).
Defined in the source but absent from `indices_registry`. -/
def evi (raster : Raster) : Except String Band :=
  match _get_band_locations raster.band_names ["red", "blue", "nir1"] with
  | .error e => .error e
  | .ok locs =>
    let red := locs.getD 0 0
    let blue := locs.getD 1 0
    let nir1 := locs.getD 2 0
    .ok fun x y =>
      ((2.5 : ℚ) * (raster.band nir1 x y - raster.band red x y)) /
        (raster.band nir1 x y + 6 * raster.band red x y -
          (7.5 : ℚ) * raster.band blue x y + 1)

/-- `fdi`: the requested band list is `["blue", "nir2", "rededge"]` when
`all(b in bands for b in raster.band_names)` holds for that list (again the
generator ranges over the raster's band names), else `["blue", "nir1", "red"]`;
the result is band2 - (band3 + band1) for the resolved locations, i.e.
nir2 - (rededge + blue) in the first case and nir1 - (red + blue) in the second. -/
def fdi (raster : Raster) : Except String Band :=
  let bands :=
    if raster.band_names.all (fun b => ["blue", "nir2", "rededge"].contains b) then
      ["blue", "nir2", "rededge"]
    else
      ["blue", "nir1", "red"]
  match _get_band_locations raster.band_names bands with
  | .error e => .error e
  | .ok locs =>
    let blue := locs.getD 0 0
    let nir := locs.getD 1 0
    let red := locs.getD 2 0
    .ok fun x y =>
      raster.band nir x y - (raster.band red x y + raster.band blue x y)

/-- `gndvi`: (nir1 - green) / (nir1 + green). -/
def gndvi (raster : Raster) : Except String Band :=
  match _get_band_locations raster.band_names ["nir1", "green"] with
  | .error e => .error e
  | .ok locs =>
    let nir1 := locs.getD 0 0
    let green := locs.getD 1 0
    .ok fun x y =>
      (raster.band nir1 x y - raster.band green x y) /
        (raster.band nir1 x y + raster.band green x y)

/-- `ndvi`: (nir1 - red) / (nir1 + red). -/
def ndvi (raster : Raster) : Except String Band :=
  match _get_band_locations raster.band_names ["nir1", "red"] with
  | .error e => .error e
  | .ok locs =>
    let nir1 := locs.getD 0 0
    let red := locs.getD 1 0
    .ok fun x y =>
      (raster.band nir1 x y - raster.band red x y) /
        (raster.band nir1 x y + raster.band red x y)

/-- `ndwi`: (green - nir1) / (green + nir1). -/
def ndwi (raster : Raster) : Except String Band :=
  match _get_band_locations raster.band_names ["nir1", "green"] with
  | .error e => .error e
  | .ok locs =>
    let nir1 := locs.getD 0 0
    let green := locs.getD 1 0
    .ok fun x y =>
      (raster.band green x y - raster.band nir1 x y) /
        (raster.band green x y + raster.band nir1 x y)

/-- `si`: (blue - green / red) ** (1/3), with the float power operator
modelled by the explicit parameter `fpow`; the base is the whole difference
`blue - green / red`, exactly as the source parenthesizes it. -/
def si (fpow : ℚ → ℚ → ℚ) (raster : Raster) : Except String Band :=
  match _get_band_locations raster.band_names ["red", "blue", "green"] with
  | .error e => .error e
  | .ok locs =>
    let red := locs.getD 0 0
    let blue := locs.getD 1 0
    let green := locs.getD 2 0
    .ok fun x y =>
      fpow (raster.band blue x y - raster.band green x y / raster.band red x y)
        ((1 : ℚ) / 3)

/-- `sr`: nir1 / red. -/
def sr (raster : Raster) : Except String Band :=
  match _get_band_locations raster.band_names ["nir1", "red"] with
  | .error e => .error e
  | .ok locs =>
    let nir1 := locs.getD 0 0
    let red := locs.getD 1 0
    .ok fun x y => raster.band nir1 x y / raster.band red x y

/-- `indices_registry`: the name-to-function mapping of the source, as an
association list in the same order; note `evi` is absent. -/
def indices_registry (fpow : ℚ → ℚ → ℚ) : List (String × (Raster → Except String Band)) :=
  [("bai", bai), ("cig", cig), ("cire", cire), ("cm", cm),
   ("cs1", cs1), ("cs2", cs2), ("dvi", dvi), ("dwi", dwi),
   ("fdi", fdi), ("gndvi", gndvi), ("ndvi", ndvi), ("ndwi", ndwi),
   ("si", si fpow), ("sr", sr)]

/-- `_get_index_function(index_key)`: registry lookup of the lower-cased key,
ValueError naming the original key when the lookup misses. -/
def _get_index_function (fpow : ℚ → ℚ → ℚ) (index_key : String) :
    Except String (Raster → Except String Band) :=
  match (indices_registry fpow).lookup (pyLower index_key) with
  | some f => .ok f
  | none => .error ("Invalid indices mapping: " ++ index_key ++ ".")

/-- One `xr.concat` step plus the in-place append to `band_names`: the new
single band is concatenated on the band axis and its name appended. -/
def appendBand (r : Raster) (b : Band) (name : String) : Raster :=
  { data := r.data ++ [b], band_names := r.band_names ++ [name] }

/-- The `for band_id in output_bands` loop of `add_indices`, with the running
band counter `n` threaded exactly as in the source (the membership test is
against `input_bands`). -/
def addIndicesLoop (fpow : ℚ → ℚ → ℚ) (input_bands : List String) :
    Raster → Nat → List String → Except String (Raster × Nat)
  | r, n, [] => .ok (r, n)
  | r, n, band_id :: rest =>
    if band_id ∈ input_bands then
      addIndicesLoop fpow input_bands r n rest
    else
      match _get_index_function fpow band_id with
      | .error e => .error e
      | .ok f =>
        match f r with
        | .error e => .error e
        | .ok new_index =>
          addIndicesLoop fpow input_bands (appendBand r new_index band_id) (n + 1) rest

/-- `add_indices(xraster, input_bands, output_bands, factor)`: lower-case both
lists, overwrite the raster's `band_names` with the lowered `input_bands`, then
append every output band not already among the input bands.  The `factor`
argument is accepted and unused, as in the source (default 1.0 there). -/
def add_indices (fpow : ℚ → ℚ → ℚ) (xraster : Raster)
    (input_bands output_bands : List String) (factor : ℚ) : Except String Raster :=
  let inputL := input_bands.map pyLower
  let outputL := output_bands.map pyLower
  let start : Raster := { xraster with band_names := inputL }
  let _ := factor
  match addIndicesLoop fpow inputL start inputL.length outputL with
  | .ok (r, _) => .ok r
  | .error e => .error e

/-- Outcome of running a Python callable: a normal return, a process
termination via `sys.exit` (SystemExit), or an uncaught exception. -/
inductive PyOutcome (α : Type) where
  | returns (v : α)
  | exits (msg : String)
  | raises (msg : String)
deriving DecidableEq

/-- Result of `eval` on the optimizer string: a value, a NameError with its
message, or some other exception. -/
inductive PyEval (α : Type) where
  | ok (v : α)
  | nameError (msg : String)
  | otherError (msg : String)
deriving DecidableEq

/-- `get_optimizer(optimizer)`: evaluate the string against the pre-imported
namespaces (the evaluator `ev` and the reprs of the tf / sm / tfa modules are
parameters of the model); a NameError is caught and turned into `sys.exit`
with the accepted-namespaces message, any other exception propagates. -/
def get_optimizer {α : Type} (tfRepr smRepr tfaRepr : String)
    (ev : String → PyEval α) (optimizer : String) : PyOutcome α :=
  match ev optimizer with
  | .ok v => .returns v
  | .nameError err =>
    .exits (err ++ ". Accepted optimizers from " ++ tfRepr ++ ", " ++
      smRepr ++ ", " ++ tfaRepr)
  | .otherError e => .raises e

/-- `listStartsWith n h`: the char list `n` is an initial segment of `h`. -/
def listStartsWith : List Char → List Char → Bool
  | [], _ => true
  | _ :: _, [] => false
  | a :: as, b :: bs => a == b && listStartsWith as bs

/-- `listHasSegment n h`: the char list `n` occurs contiguously inside `h`. -/
def listHasSegment (needle : List Char) : List Char → Bool
  | [] => listStartsWith needle []
  | c :: cs => listStartsWith needle (c :: cs) || listHasSegment needle cs

/-- `strHasSegment s pat`: the string `pat` occurs contiguously inside `s`;
used to state that an error message names a band, a list or a namespace. -/
def strHasSegment (s pat : String) : Bool :=
  listHasSegment pat.data s.data

/-- Whether the band-name metadata and the band axis agree in length. -/
def bandCountOk (r : Raster) : Prop :=
  r.band_names.length = r.data.length

/-- A constant band, for concrete test rasters. -/
def constB (q : ℚ) : Band := fun _ _ => q

/-- A concrete power function (the base, ignoring the exponent), used to
instantiate the abstract `fpow` parameter in concrete computations. -/
def fpow0 : ℚ → ℚ → ℚ := fun x _ => x

/-- A raster whose band names contain both nir1 and rededge plus one more. -/
def R_cire : Raster :=
  { data := [constB 1, constB 2, constB 3],
    band_names := ["blue", "nir1", "rededge"] }

/-- A WorldView-style 8-band raster (contains nir2, rededge and more). -/
def R8 : Raster :=
  { data := [constB 0, constB 1, constB 2, constB 3,
             constB 4, constB 5, constB 10, constB 20],
    band_names := ["coastal", "blue", "green", "yellow",
                   "red", "rededge", "nir1", "nir2"] }

/-- A raster whose band names are exactly blue, nir2, rededge. -/
def R3 : Raster :=
  { data := [constB 1, constB 20, constB 5],
    band_names := ["blue", "nir2", "rededge"] }

/-- A 4-band raster with the canonical blue, green, red, nir1 bands. -/
def R4 : Raster :=
  { data := [constB 1, constB 2, constB 3, constB 4],
    band_names := ["blue", "green", "red", "nir1"] }

/-- A 3-band raster for the `si` computation (blue 9, green 2, red 2). -/
def Rsi : Raster :=
  { data := [constB 9, constB 2, constB 2],
    band_names := ["blue", "green", "red"] }

/-- The canonical 4-band input list. -/
def ib4 : List String := ["blue", "green", "red", "nir1"]

/-- The output list requesting ndvi on top of the 4 input bands. -/
def ob5 : List String := ["blue", "green", "red", "nir1", "ndvi"]

theorem pyIndex_eq_none (xs : List String) (x : String) (h : x ∉ xs) :
    pyIndex xs x = none := by
  induction xs with
  | nil => rfl
  | cons y ys ih =>
    simp only [List.mem_cons, not_or] at h
    simp [pyIndex, Ne.symm h.1, ih h.2]

theorem pyIndex_of_mem (xs : List String) (x : String) (h : x ∈ xs) :
    pyIndex xs x = some (xs.indexOf x) := by
  induction xs with
  | nil => cases h
  | cons y ys ih =>
    by_cases hy : y = x
    · simp [pyIndex, hy, List.indexOf_cons]
    · have hx : x ∈ ys := by
        rcases List.mem_cons.mp h with h1 | h1
        · exact absurd h1.symm hy
        · exact h1
      have hb : (y == x) = false := by simp [hy]
      simp [pyIndex, hy, ih hx, List.indexOf_cons, hb]

theorem gbl_two (bands : List String) (b1 b2 : String) (i1 i2 : Nat)
    (h1 : pyIndex bands (pyLower b1) = some i1)
    (h2 : pyIndex bands (pyLower b2) = some i2) :
    _get_band_locations bands [b1, b2] = .ok [i1, i2] := by
  simp [_get_band_locations, h1, h2]

theorem gbl_three (bands : List String) (b1 b2 b3 : String) (i1 i2 i3 : Nat)
    (h1 : pyIndex bands (pyLower b1) = some i1)
    (h2 : pyIndex bands (pyLower b2) = some i2)
    (h3 : pyIndex bands (pyLower b3) = some i3) :
    _get_band_locations bands [b1, b2, b3] = .ok [i1, i2, i3] := by
  simp [_get_band_locations, h1, h2, h3]

theorem lookup_eq_none_of_not_mem_keys {β : Type} (l : List (String × β)) (k : String)
    (h : k ∉ l.map Prod.fst) : l.lookup k = none := by
  induction l with
  | nil => rfl
  | cons a rest ih =>
    simp only [List.map_cons, List.mem_cons, not_or] at h
    have hb : (k == a.1) = false := by simp [h.1]
    simp [List.lookup, hb, ih h.2]

theorem listStartsWith_append (as bs : List Char) :
    listStartsWith as (as ++ bs) = true := by
  induction as with
  | nil => rfl
  | cons a as ih => simp [listStartsWith, ih]

theorem listHasSegment_of_mid (p n q : List Char) :
    listHasSegment n (p ++ (n ++ q)) = true := by
  induction p with
  | nil =>
    cases hn : n with
    | nil =>
      cases q with
      | nil => rfl
      | cons c cs => simp [listHasSegment, listStartsWith]
    | cons a as =>
      simp [listHasSegment, listStartsWith, listStartsWith_append]
  | cons c cs ih =>
    simp only [List.cons_append, listHasSegment, List.append_eq]
    rw [ih]
    simp

theorem listHasSegment_of_chunk {n hay : List Char} (h : n <:+: hay) :
    listHasSegment n hay = true := by
  obtain ⟨p, q, hpq⟩ := h
  rw [← hpq, List.append_assoc]
  exact listHasSegment_of_mid p n q

theorem strHasSegment_mid (a b c : String) :
    strHasSegment (a ++ b ++ c) b = true := by
  apply listHasSegment_of_chunk
  refine ⟨a.data, c.data, ?_⟩
  simp [String.data_append]

theorem strHasSegment_left (b c : String) :
    strHasSegment (b ++ c) b = true := by
  apply listHasSegment_of_chunk
  refine ⟨[], c.data, ?_⟩
  simp [String.data_append]

theorem strHasSegment_right (a b : String) :
    strHasSegment (a ++ b) b = true := by
  apply listHasSegment_of_chunk
  refine ⟨a.data, [], ?_⟩
  simp [String.data_append]

theorem addIndicesLoop_no_append (fpow : ℚ → ℚ → ℚ) (ibs : List String)
    (r : Raster) (n : Nat) (out : List String) (h : ∀ b ∈ out, b ∈ ibs) :
    addIndicesLoop fpow ibs r n out = .ok (r, n) := by
  induction out with
  | nil => rfl
  | cons b rest ih =>
    have hb : b ∈ ibs := h b (List.mem_cons_self b rest)
    have hrest : ∀ x ∈ rest, x ∈ ibs := fun x hx => h x (List.mem_cons_of_mem b hx)
    simp [addIndicesLoop, hb, ih hrest]

theorem bandCountOk_appendBand (r : Raster) (b : Band) (name : String)
    (h : bandCountOk r) : bandCountOk (appendBand r b name) := by
  simp [bandCountOk, appendBand] at *
  exact h

theorem addIndicesLoop_preserves (fpow : ℚ → ℚ → ℚ) (ibs : List String)
    (out : List String) :
    ∀ (r : Raster) (n : Nat) (r' : Raster) (n' : Nat),
      bandCountOk r → addIndicesLoop fpow ibs r n out = .ok (r', n') → bandCountOk r' := by
  induction out with
  | nil =>
    intro r n r' n' hr h
    simp only [addIndicesLoop, Except.ok.injEq, Prod.mk.injEq] at h
    rw [← h.1]
    exact hr
  | cons b rest ih =>
    intro r n r' n' hr h
    by_cases hb : b ∈ ibs
    · simp only [addIndicesLoop, if_pos hb] at h
      exact ih r n r' n' hr h
    · simp only [addIndicesLoop, if_neg hb] at h
      cases hf : _get_index_function fpow b with
      | error e => simp [hf] at h
      | ok f =>
        simp only [hf] at h
        cases hfr : f r with
        | error e => simp [hfr] at h
        | ok nb =>
          simp only [hfr] at h
          exact ih _ _ _ _ (bandCountOk_appendBand r nb b hr) h

/-- C1: the claim is refuted by the code and the code contradicts its own
docstring.  On `R_cire`, whose band names contain both nir1 and rededge
(plus blue), `cire` nevertheless takes the fallback band set and raises
NotFound for red, because the membership test `all(b in bands for b in
raster.band_names)` ranges over the raster's band names instead of the
required bands.  Likewise `fdi` on the 8-band raster `R8`, whose band names
contain nir2, takes the fallback and computes nir1 - (red + blue) = 5,
although its own docstring prescribes NIR2 - (RedEdge + Blue) = 14 for
8-band imagery. -/
theorem cire_fdi_fallback_condition_code_bug :
    cire R_cire = .error (bandNotFoundMsg "red" ["blue", "nir1", "rededge"])
    ∧ "nir1" ∈ R_cire.band_names
    ∧ "rededge" ∈ R_cire.band_names
    ∧ (fdi R8).map (fun b => b 0 0) = .ok 5
    ∧ "nir2" ∈ R8.band_names
    ∧ R8.band (R8.band_names.indexOf "nir2") 0 0 -
        (R8.band (R8.band_names.indexOf "rededge") 0 0 +
          R8.band (R8.band_names.indexOf "blue") 0 0) = 14
    ∧ (5 : ℚ) ≠ 14 := by
  refine ⟨rfl, by decide, by decide, ?_, by decide, ?_, by norm_num⟩
  · have h : (fdi R8).map (fun b => b 0 0) = .ok ((10 : ℚ) - (4 + 1)) := rfl
    rw [h]
    norm_num
  · show (20 : ℚ) - (5 + 1) = 14
    norm_num

/-- C2 counterexample: calling `add_indices` a second time with the same
`input_bands` and `output_bands` on the first call's result appends ndvi
again: the first call returns 5 bands with 5 names, the second call returns
6 bands (with only 5 names), so the second call is not a no-op. -/
theorem add_indices_not_idempotent_counterexample :
    (add_indices fpow0 R4 ib4 ob5 1).map (fun r => (r.data.length, r.band_names))
      = .ok (5, ["blue", "green", "red", "nir1", "ndvi"])
    ∧ ((add_indices fpow0 R4 ib4 ob5 1).bind
          (fun r1 => add_indices fpow0 r1 ib4 ob5 1)).map
        (fun r => (r.data.length, r.band_names))
      = .ok (6, ["blue", "green", "red", "nir1", "ndvi"])
    ∧ (6 : Nat) ≠ 5 := by
  exact ⟨rfl, rfl, by decide⟩

/-- C2 amended: `add_indices` appends nothing exactly when every (lowered)
output band is already among the (lowered) input bands, since the membership
test of the loop is against `input_bands`; in particular a second call is a
no-op when its `input_bands` argument is the band-name metadata of the first
call's result, not when the original `input_bands` is passed again. -/
theorem add_indices_noop_of_outputs_in_inputs (fpow : ℚ → ℚ → ℚ) (r : Raster)
    (input_bands output_bands : List String) (factor : ℚ)
    (h : ∀ b ∈ output_bands, pyLower b ∈ input_bands.map pyLower) :
    add_indices fpow r input_bands output_bands factor
      = .ok { r with band_names := input_bands.map pyLower } := by
  have hall : ∀ b ∈ output_bands.map pyLower, b ∈ input_bands.map pyLower := by
    intro b hb
    obtain ⟨o, ho, rfl⟩ := List.mem_map.mp hb
    exact h o ho
  simp only [add_indices]
  rw [addIndicesLoop_no_append fpow (input_bands.map pyLower)
    { r with band_names := input_bands.map pyLower }
    (input_bands.map pyLower).length (output_bands.map pyLower) hall]

/-- C2 witness: a second call whose `input_bands` is the first call's output
band list (which contains ndvi) appends nothing. -/
theorem add_indices_noop_witness :
    add_indices fpow0
        { data := R4.data ++ [constB 7], band_names := ob5 } ob5 ob5 1
      = .ok { data := R4.data ++ [constB 7], band_names := ob5 } := by
  have h := add_indices_noop_of_outputs_in_inputs fpow0
    { data := R4.data ++ [constB 7], band_names := ob5 } ob5 ob5 1 (by decide)
  exact h

/-- C3: on any 4-band raster carrying the band names blue, green, red, nir1,
`add_indices` with those input bands and output bands extended by ndvi
returns a raster with 5 bands, with ndvi appended to the band-name metadata,
and whose new fifth band is exactly the band computed by `ndvi` on the
raster as it was before the append. -/
theorem add_indices_appends_ndvi (fpow : ℚ → ℚ → ℚ) (r : Raster)
    (h1 : r.data.length = 4)
    (h2 : r.band_names = ["blue", "green", "red", "nir1"]) :
    ∃ nb : Band, ndvi r = .ok nb
      ∧ add_indices fpow r ["blue", "green", "red", "nir1"]
            ["blue", "green", "red", "nir1", "ndvi"] 1
          = .ok { data := r.data ++ [nb],
                  band_names := ["blue", "green", "red", "nir1", "ndvi"] }
      ∧ (r.data ++ [nb]).length = 5
      ∧ ({ data := r.data ++ [nb],
           band_names := ["blue", "green", "red", "nir1", "ndvi"] } : Raster).band 4 = nb := by
  obtain ⟨dat, names⟩ := r
  simp only [Raster.band_names] at h2
  subst h2
  simp only [Raster.data] at h1
  refine ⟨_, rfl, rfl, ?_, ?_⟩
  · simp [List.length_append, h1]
  · show (dat ++ [_]).getD 4 (fun _ _ => 0) = _
    rw [← h1]
    rw [List.getD_append_right _ _ _ _ (le_of_eq rfl)]
    simp

/-- C3 witness: the concrete 4-band raster `R4`. -/
theorem add_indices_appends_ndvi_witness :
    ∃ nb : Band, ndvi R4 = .ok nb
      ∧ add_indices fpow0 R4 ["blue", "green", "red", "nir1"]
            ["blue", "green", "red", "nir1", "ndvi"] 1
          = .ok { data := R4.data ++ [nb],
                  band_names := ["blue", "green", "red", "nir1", "ndvi"] }
      ∧ (R4.data ++ [nb]).length = 5
      ∧ ({ data := R4.data ++ [nb],
           band_names := ["blue", "green", "red", "nir1", "ndvi"] } : Raster).band 4 = nb := by
  exact add_indices_appends_ndvi fpow0 R4 (by decide) rfl

/-- C4: the invariant that the band-name metadata length equals the band
count holds at every observable point of `add_indices`: each single append
step (one band concatenated, one name appended) preserves it, and whenever
`add_indices` is entered with `input_bands` matching the raster's band count
and returns a raster, the returned raster satisfies it. -/
theorem add_indices_band_count_invariant :
    (∀ (r : Raster) (b : Band) (name : String),
        bandCountOk r → bandCountOk (appendBand r b name))
    ∧ (∀ (fpow : ℚ → ℚ → ℚ) (r r' : Raster)
          (input_bands output_bands : List String) (factor : ℚ),
        input_bands.length = r.data.length →
        add_indices fpow r input_bands output_bands factor = .ok r' →
        bandCountOk r') := by
  constructor
  · exact bandCountOk_appendBand
  · intro fpow r r' input_bands output_bands factor hlen hadd
    simp only [add_indices] at hadd
    cases hl : addIndicesLoop fpow (input_bands.map pyLower)
        { r with band_names := input_bands.map pyLower }
        (input_bands.map pyLower).length (output_bands.map pyLower) with
    | error e => rw [hl] at hadd; cases hadd
    | ok p =>
      obtain ⟨r2, n2⟩ := p
      rw [hl] at hadd
      simp only [Except.ok.injEq] at hadd
      rw [← hadd]
      refine addIndicesLoop_preserves fpow (input_bands.map pyLower)
        (output_bands.map pyLower) _ _ r2 n2 ?_ hl
      simp [bandCountOk, List.length_map, hlen]

/-- C4 witness: the append step on the concrete raster `R4` and a run of
`add_indices` on `R4` with an empty output list. -/
theorem add_indices_band_count_invariant_witness :
    bandCountOk (appendBand R4 (constB 0) "x") ∧ bandCountOk R4 := by
  exact ⟨add_indices_band_count_invariant.1 R4 (constB 0) "x" rfl,
    add_indices_band_count_invariant.2 fpow0 R4 R4 ib4 [] 1 rfl rfl⟩

/-- C5 counterexample: on the 8-band raster `R8`, whose band-name metadata
contains nir2, `fdi` does not compute nir2 - (red + blue): it evaluates to
10 - (4 + 1) = 5 (nir1 - (red + blue)) while nir2 - (red + blue) is 15. -/
theorem fdi_formula_counterexample :
    "nir2" ∈ R8.band_names
    ∧ (fdi R8).map (fun b => b 0 0)
        ≠ .ok (R8.band (R8.band_names.indexOf "nir2") 0 0 -
            (R8.band (R8.band_names.indexOf "red") 0 0 +
              R8.band (R8.band_names.indexOf "blue") 0 0)) := by
  refine ⟨by decide, ?_⟩
  have h1 : (fdi R8).map (fun b => b 0 0) = .ok ((10 : ℚ) - (4 + 1)) := rfl
  have h2 : R8.band (R8.band_names.indexOf "nir2") 0 0 -
      (R8.band (R8.band_names.indexOf "red") 0 0 +
        R8.band (R8.band_names.indexOf "blue") 0 0) = (20 : ℚ) - (4 + 1) := rfl
  rw [h1, h2]
  intro hc
  rw [Except.ok.injEq] at hc
  norm_num at hc

/-- C5 amended: `fdi` uses the band set blue, nir2, rededge exactly when
every band name of the raster lies in that set (the source's membership test
ranges over the raster's band names), and then computes
nir2 - (rededge + blue); in every other case, including 8-band rasters that
contain nir2 among other bands, it computes nir1 - (red + blue). -/
theorem fdi_formula_amended :
    (∀ (r : Raster) (ib in2 ire : Nat),
        r.band_names.all (fun b => ["blue", "nir2", "rededge"].contains b) = true →
        pyIndex r.band_names "blue" = some ib →
        pyIndex r.band_names "nir2" = some in2 →
        pyIndex r.band_names "rededge" = some ire →
        fdi r = .ok (fun x y =>
          r.band in2 x y - (r.band ire x y + r.band ib x y)))
    ∧ (∀ (r : Raster) (ib in1 ird : Nat),
        r.band_names.all (fun b => ["blue", "nir2", "rededge"].contains b) = false →
        pyIndex r.band_names "blue" = some ib →
        pyIndex r.band_names "nir1" = some in1 →
        pyIndex r.band_names "red" = some ird →
        fdi r = .ok (fun x y =>
          r.band in1 x y - (r.band ird x y + r.band ib x y))) := by
  constructor
  · intro r ib in2 ire hcond hb hn hre
    have hloc : _get_band_locations r.band_names ["blue", "nir2", "rededge"]
        = .ok [ib, in2, ire] := gbl_three r.band_names _ _ _ _ _ _ hb hn hre
    unfold fdi
    rw [hcond]
    simp [hloc]
  · intro r ib in1 ird hcond hb hn hrd
    have hloc : _get_band_locations r.band_names ["blue", "nir1", "red"]
        = .ok [ib, in1, ird] := gbl_three r.band_names _ _ _ _ _ _ hb hn hrd
    unfold fdi
    rw [hcond]
    simp [hloc]

/-- C5 witness: both branches at concrete rasters — `R3` (band names exactly
blue, nir2, rededge) takes the nir2 - (rededge + blue) branch, and the
8-band raster `R8` takes the nir1 - (red + blue) branch. -/
theorem fdi_formula_amended_witness :
    fdi R3 = .ok (fun x y => R3.band 1 x y - (R3.band 2 x y + R3.band 0 x y))
    ∧ fdi R8 = .ok (fun x y => R8.band 6 x y - (R8.band 4 x y + R8.band 1 x y)) := by
  exact ⟨fdi_formula_amended.1 R3 0 1 2 rfl rfl rfl rfl,
    fdi_formula_amended.2 R8 1 6 4 rfl rfl rfl rfl⟩

/-- C6 counterexample: a requested name that is literally present in the
band list can still fail, because the request is lower-cased before lookup
while stored names are compared verbatim: requesting "NIR1" against the band
list ["NIR1"] raises NotFound although "NIR1" is a member of the list. -/
theorem get_band_locations_counterexample :
    "NIR1" ∈ ["NIR1"]
    ∧ _get_band_locations ["NIR1"] ["NIR1"]
        = .error (bandNotFoundMsg "NIR1" ["NIR1"]) := by
  exact ⟨by decide, rfl⟩

/-- C6 amended: restricted to requested names that are already lower-case
(as all the spec's examples are), `_get_band_locations` returns the integer
positions (first occurrences) of the requested names, in the order
requested, whenever all of them are present; and when some requested name is
absent it fails with the NotFound error for the first absent name, whose
message contains that name and the Python repr of the full band list. -/
theorem get_band_locations_amended (bands requested : List String)
    (hlc : ∀ b ∈ requested, pyLower b = b) :
    ((∀ b ∈ requested, b ∈ bands) →
        _get_band_locations bands requested
          = .ok (requested.map (fun b => bands.indexOf b)))
    ∧ ((∃ b ∈ requested, b ∉ bands) →
        ∃ b, b ∈ requested ∧ b ∉ bands
          ∧ _get_band_locations bands requested = .error (bandNotFoundMsg b bands)
          ∧ strHasSegment (bandNotFoundMsg b bands) b = true
          ∧ strHasSegment (bandNotFoundMsg b bands) (pyListRepr bands) = true) := by
  induction requested with
  | nil =>
    refine ⟨fun _ => rfl, ?_⟩
    rintro ⟨b, hb, -⟩
    cases hb
  | cons b rest ih =>
    have hlb : pyLower b = b := hlc b (List.mem_cons_self b rest)
    have hlcr : ∀ x ∈ rest, pyLower x = x :=
      fun x hx => hlc x (List.mem_cons_of_mem b hx)
    obtain ⟨ihok, iherr⟩ := ih hlcr
    constructor
    · intro hall
      have hbmem : b ∈ bands := hall b (List.mem_cons_self b rest)
      have hpi : pyIndex bands (pyLower b) = some (bands.indexOf b) := by
        rw [hlb]
        exact pyIndex_of_mem bands b hbmem
      have hr := ihok (fun x hx => hall x (List.mem_cons_of_mem b hx))
      simp [_get_band_locations, hpi, hr]
    · rintro ⟨w, hw, hwn⟩
      by_cases hbmem : b ∈ bands
      · have hpi : pyIndex bands (pyLower b) = some (bands.indexOf b) := by
          rw [hlb]
          exact pyIndex_of_mem bands b hbmem
        have hrest : ∃ x ∈ rest, x ∉ bands := by
          rcases List.mem_cons.mp hw with h1 | h1
          · subst h1
            exact absurd hbmem hwn
          · exact ⟨w, h1, hwn⟩
        obtain ⟨x, hx, hxn, herr, hs1, hs2⟩ := iherr hrest
        refine ⟨x, List.mem_cons_of_mem b hx, hxn, ?_, hs1, hs2⟩
        simp [_get_band_locations, hpi, herr]
      · have hpi : pyIndex bands (pyLower b) = none := by
          rw [hlb]
          exact pyIndex_eq_none bands b hbmem
        refine ⟨b, List.mem_cons_self b rest, hbmem, ?_, ?_, ?_⟩
        · simp [_get_band_locations, hpi]
        · show strHasSegment (b ++ " not in raster bands " ++ pyListRepr bands) b = true
          rw [String.append_assoc]
          exact strHasSegment_left b _
        · exact strHasSegment_right _ _

/-- C6 witness: the spec's own examples — positions [3, 2] for nir1 and red
against the canonical 4-band list, and NotFound for swir1. -/
theorem get_band_locations_amended_witness :
    _get_band_locations ["blue", "green", "red", "nir1"] ["nir1", "red"]
      = .ok [3, 2]
    ∧ ∃ b, b ∈ ["swir1"] ∧ b ∉ ["blue", "green", "red", "nir1"]
        ∧ _get_band_locations ["blue", "green", "red", "nir1"] ["swir1"]
            = .error (bandNotFoundMsg b ["blue", "green", "red", "nir1"])
        ∧ strHasSegment (bandNotFoundMsg b ["blue", "green", "red", "nir1"]) b = true
        ∧ strHasSegment (bandNotFoundMsg b ["blue", "green", "red", "nir1"])
            (pyListRepr ["blue", "green", "red", "nir1"]) = true := by
  constructor
  · have h := (get_band_locations_amended ["blue", "green", "red", "nir1"]
      ["nir1", "red"] (by decide)).1 (by decide)
    rw [h]
    rfl
  · exact (get_band_locations_amended ["blue", "green", "red", "nir1"]
      ["swir1"] (by decide)).2 ⟨"swir1", by decide, by decide⟩

/-- C7 counterexample: the registry lookup lower-cases the requested key, so
"NDVI" — which is not a key of the registry — dispatches to `ndvi` instead
of raising InvalidMapping. -/
theorem get_index_function_counterexample :
    "NDVI" ∉ (indices_registry fpow0).map Prod.fst
    ∧ _get_index_function fpow0 "NDVI" = .ok ndvi := by
  exact ⟨by decide, rfl⟩

/-- C7 amended: for every supported index name except evi the dispatch
returns the index function of that name; for "evi" and for every name whose
lower-cased form is not a registered key it raises InvalidMapping with a
message containing that exact requested string. -/
theorem get_index_function_amended :
    (∀ fpow : ℚ → ℚ → ℚ,
      _get_index_function fpow "bai" = .ok bai
      ∧ _get_index_function fpow "cig" = .ok cig
      ∧ _get_index_function fpow "cire" = .ok cire
      ∧ _get_index_function fpow "cm" = .ok cm
      ∧ _get_index_function fpow "cs1" = .ok cs1
      ∧ _get_index_function fpow "cs2" = .ok cs2
      ∧ _get_index_function fpow "dvi" = .ok dvi
      ∧ _get_index_function fpow "dwi" = .ok dwi
      ∧ _get_index_function fpow "fdi" = .ok fdi
      ∧ _get_index_function fpow "gndvi" = .ok gndvi
      ∧ _get_index_function fpow "ndvi" = .ok ndvi
      ∧ _get_index_function fpow "ndwi" = .ok ndwi
      ∧ _get_index_function fpow "si" = .ok (si fpow)
      ∧ _get_index_function fpow "sr" = .ok sr
      ∧ _get_index_function fpow "evi" = .error "Invalid indices mapping: evi.")
    ∧ (∀ (fpow : ℚ → ℚ → ℚ) (s : String),
        pyLower s ∉ (indices_registry fpow).map Prod.fst →
        _get_index_function fpow s = .error ("Invalid indices mapping: " ++ s ++ ".")
        ∧ strHasSegment ("Invalid indices mapping: " ++ s ++ ".") s = true) := by
  constructor
  · intro fpow
    exact ⟨rfl, rfl, rfl, rfl, rfl, rfl, rfl, rfl, rfl, rfl, rfl, rfl, rfl, rfl, rfl⟩
  · intro fpow s h
    have hl : (indices_registry fpow).lookup (pyLower s) = none :=
      lookup_eq_none_of_not_mem_keys (indices_registry fpow) (pyLower s) h
    constructor
    · simp [_get_index_function, hl]
    · exact strHasSegment_mid "Invalid indices mapping: " s "."

/-- C7 witness: an unregistered name. -/
theorem get_index_function_amended_witness :
    _get_index_function fpow0 "bogus" = .error ("Invalid indices mapping: " ++ "bogus" ++ ".")
    ∧ strHasSegment ("Invalid indices mapping: " ++ "bogus" ++ ".") "bogus" = true := by
  exact get_index_function_amended.2 fpow0 "bogus" (by decide)

/-- C8: for every implementation of the float power operator and every
raster in which red, blue and green resolve, `si` computes
fpow (blue - green / red) (1/3): the quotient green / red is subtracted
from blue and the one-third power applies to that whole difference.  At the
concrete raster `Rsi` (blue 9, green 2, red 2), taking the base of the
power, the computed base is 9 - 2 / 2 = 8, which differs from the readings
(blue - green) / red = 7/2 and blue * green * red = 36 that the rival
formulas would produce. -/
theorem si_precedence (fpow : ℚ → ℚ → ℚ) (r : Raster) (ired iblue igreen : Nat)
    (hred : pyIndex r.band_names "red" = some ired)
    (hblue : pyIndex r.band_names "blue" = some iblue)
    (hgreen : pyIndex r.band_names "green" = some igreen) :
    si fpow r = .ok (fun x y =>
      fpow (r.band iblue x y - r.band igreen x y / r.band ired x y) ((1 : ℚ) / 3))
    ∧ (si fpow0 Rsi).map (fun b => b 0 0) = .ok ((9 : ℚ) - 2 / 2)
    ∧ (9 : ℚ) - 2 / 2 = 8
    ∧ ((9 : ℚ) - 2) / 2 ≠ 8
    ∧ (9 : ℚ) * 2 * 2 ≠ 8 := by
  have hloc : _get_band_locations r.band_names ["red", "blue", "green"]
      = .ok [ired, iblue, igreen] := gbl_three r.band_names _ _ _ _ _ _ hred hblue hgreen
  refine ⟨?_, rfl, by norm_num, by norm_num, by norm_num⟩
  simp [si, hloc]

/-- C8 witness: the concrete raster `Rsi`, on which red, blue, green resolve
to positions 2, 0, 1. -/
theorem si_precedence_witness :
    si fpow0 Rsi = .ok (fun x y =>
      fpow0 (Rsi.band 0 x y - Rsi.band 1 x y / Rsi.band 2 x y) ((1 : ℚ) / 3)) := by
  exact (si_precedence fpow0 Rsi 2 0 1 rfl rfl rfl).1

/-- C9: when the evaluation of the optimizer string raises NameError,
`get_optimizer` terminates the process via `sys.exit` — an outcome distinct
from returning and from raising a recoverable exception — and the
termination message contains the reprs of the three accepted optimizer
namespaces; when the evaluation yields a value, `get_optimizer` returns
exactly that value. -/
theorem get_optimizer_fatal_on_undefined (α : Type) (tfR smR tfaR : String)
    (ev : String → PyEval α) (s : String) :
    (∀ v : α, ev s = .ok v → get_optimizer tfR smR tfaR ev s = .returns v)
    ∧ (∀ msg : String, ev s = .nameError msg →
        get_optimizer tfR smR tfaR ev s
          = .exits (msg ++ ". Accepted optimizers from " ++ tfR ++ ", " ++ smR ++ ", " ++ tfaR)
        ∧ (∀ v : α, get_optimizer tfR smR tfaR ev s ≠ .returns v)
        ∧ (∀ e : String, get_optimizer tfR smR tfaR ev s ≠ .raises e)
        ∧ strHasSegment
            (msg ++ ". Accepted optimizers from " ++ tfR ++ ", " ++ smR ++ ", " ++ tfaR) tfR = true
        ∧ strHasSegment
            (msg ++ ". Accepted optimizers from " ++ tfR ++ ", " ++ smR ++ ", " ++ tfaR) smR = true
        ∧ strHasSegment
            (msg ++ ". Accepted optimizers from " ++ tfR ++ ", " ++ smR ++ ", " ++ tfaR) tfaR = true) := by
  constructor
  · intro v hv
    simp [get_optimizer, hv]
  · intro msg hm
    have hg : get_optimizer tfR smR tfaR ev s
        = .exits (msg ++ ". Accepted optimizers from " ++ tfR ++ ", " ++ smR ++ ", " ++ tfaR) := by
      simp [get_optimizer, hm]
    refine ⟨hg, ?_, ?_, ?_, ?_, ?_⟩
    · intro v hcon
      rw [hg] at hcon
      cases hcon
    · intro e hcon
      rw [hg] at hcon
      cases hcon
    · apply listHasSegment_of_chunk
      refine ⟨(msg ++ ". Accepted optimizers from ").data,
        (", " ++ smR ++ ", " ++ tfaR).data, ?_⟩
      simp [String.data_append, List.append_assoc]
    · apply listHasSegment_of_chunk
      refine ⟨(msg ++ ". Accepted optimizers from " ++ tfR ++ ", ").data,
        (", " ++ tfaR).data, ?_⟩
      simp [String.data_append, List.append_assoc]
    · apply listHasSegment_of_chunk
      refine ⟨(msg ++ ". Accepted optimizers from " ++ tfR ++ ", " ++ smR ++ ", ").data,
        [], ?_⟩
      simp [String.data_append, List.append_assoc]

/-- C9 witness: a concrete evaluator that knows one optimizer name and
raises NameError on anything else. -/
theorem get_optimizer_fatal_witness :
    get_optimizer "tfmod" "smmod" "tfamod"
        (fun q => if q = "tf.keras.optimizers.Adam" then PyEval.ok 1
                  else PyEval.nameError ("name " ++ q ++ " is not defined"))
        "tf.keras.optimizers.Adam" = .returns 1
    ∧ get_optimizer "tfmod" "smmod" "tfamod"
        (fun q => if q = "tf.keras.optimizers.Adam" then PyEval.ok 1
                  else PyEval.nameError ("name " ++ q ++ " is not defined"))
        "Adamm"
      = .exits ("name " ++ "Adamm" ++ " is not defined" ++
          ". Accepted optimizers from " ++ "tfmod" ++ ", " ++ "smmod" ++ ", " ++ "tfamod") := by
  constructor
  · exact (get_optimizer_fatal_on_undefined Nat "tfmod" "smmod" "tfamod"
      (fun q => if q = "tf.keras.optimizers.Adam" then PyEval.ok 1
                else PyEval.nameError ("name " ++ q ++ " is not defined"))
      "tf.keras.optimizers.Adam").1 1 rfl
  · exact ((get_optimizer_fatal_on_undefined Nat "tfmod" "smmod" "tfamod"
      (fun q => if q = "tf.keras.optimizers.Adam" then PyEval.ok 1
                else PyEval.nameError ("name " ++ q ++ " is not defined"))
      "Adamm").2 ("name " ++ "Adamm" ++ " is not defined") rfl).1

/-- C10: `_get_band_locations` lower-cases each requested name but compares
stored band names verbatim: against a band list of lower-case entries, a
request in any letter case resolves to the position of its lower-cased form;
and any request whose lower-cased form is absent — in particular a lower-case
request against a list whose entry differs only by case — raises NotFound
naming the request and the band list. -/
theorem get_band_locations_case_handling :
    (∀ (bands : List String) (r : String),
        (∀ b ∈ bands, pyLower b = b) → pyLower r ∈ bands →
        _get_band_locations bands [r] = .ok [bands.indexOf (pyLower r)])
    ∧ (∀ (bands : List String) (r : String),
        pyLower r ∉ bands →
        _get_band_locations bands [r] = .error (bandNotFoundMsg r bands)) := by
  constructor
  · intro bands r _ hmem
    simp [_get_band_locations, pyIndex_of_mem bands (pyLower r) hmem]
  · intro bands r h
    simp [_get_band_locations, pyIndex_eq_none bands (pyLower r) h]

/-- C10 witness: "NIR1" resolves against ["nir1"], while "nir1" against
["NIR1"] raises NotFound although the names differ only in case. -/
theorem get_band_locations_case_handling_witness :
    _get_band_locations ["nir1"] ["NIR1"] = .ok [["nir1"].indexOf (pyLower "NIR1")]
    ∧ _get_band_locations ["NIR1"] ["nir1"] = .error (bandNotFoundMsg "nir1" ["NIR1"]) := by
  exact ⟨get_band_locations_case_handling.1 ["nir1"] "NIR1" (by decide) (by decide),
    get_band_locations_case_handling.2 ["NIR1"] "nir1" (by decide)⟩
